import Mathlib

/-!
Verification of the MiniUdmAsyncErrorTracing symptom-collection orchestrator.

The definitions below are a shallow embedding of the Go sources:
- `startSymptionCollection.go` (standalone orchestrator `StartSymptomCollection`,
  `validateNamespace`, `validateDeployments`, `watchLogFile`, `cleanup`);
- `pkg/kubernetes` client (`NamespaceExists`, `IsDeploymentReady`);
- `pkg/symptom` collector (`Collector.StartCollection`, `Collector.watchLogFile`,
  `Collector.validateNamespace`, `Collector.validateDeployments`);
- the `symptom-collection` command (context constructed from `context.Background`).

Outcomes of Go functions are modelled with `Except`/`Res`; a Go runtime panic
(nil-pointer dereference) is the `Res.crash` constructor. Kubernetes API calls
are modelled by their results (`Except String _`), since the client is an
external collaborator queried read-only.
-/

/-- Result of a Go function that can return a value, return an error, or hit a
runtime panic (modelled as `crash`). -/
inductive Res (ε α : Type) where
  | ok (a : α)
  | err (e : ε)
  | crash
deriving DecidableEq

/-- Snapshot of a Kubernetes deployment as used by the validators:
`name`, `Status.ReadyReplicas`, and the pointer field `Spec.Replicas`
(`none` models a nil pointer). -/
structure Deployment where
  name : String
  readyReplicas : Int
  specReplicas : Option Int
deriving DecidableEq

/-- Go `strings.Contains s sub`: `sub` occurs in `s` as an exact, case-sensitive
substring. -/
def goContains (s sub : String) : Bool :=
  s.toList.tails.any (fun t => List.isPrefixOf sub.toList t)

/-- Inner loop of `validateDeployments` (startSymptionCollection.go lines 252-266)
for one pod fragment: scan the deployment list, and at the FIRST deployment whose
name contains the fragment, dereference `Spec.Replicas` (crash when nil) and
compare `Status.ReadyReplicas` against it; if no deployment matches, return the
not-found error. -/
def checkPod (deps : List Deployment) (pod : String) : Res String Unit :=
  match deps with
  | [] => .err ("deployment for pod " ++ pod ++ " not found")
  | d :: rest =>
    if goContains d.name pod then
      match d.specReplicas with
      | none => .crash
      | some want =>
        if d.readyReplicas < want then .err ("deployment " ++ d.name ++ " is not ready")
        else .ok ()
    else checkPod rest pod

/-- Outer loop of `validateDeployments`: check every pod fragment in order,
stopping at the first failure. -/
def checkPods (deps : List Deployment) (pods : List String) : Res String Unit :=
  match pods with
  | [] => .ok ()
  | p :: ps =>
    match checkPod deps p with
    | .ok _ => checkPods deps ps
    | .err e => .err e
    | .crash => .crash

/-- The function `validateDeployments` (startSymptionCollection.go lines 246-270):
list the deployments of the namespace (the call may fail), then run the per-pod
checks. -/
def validateDeployments (depsGet : Except String (List Deployment))
    (pods : List String) : Res String Unit :=
  match depsGet with
  | .error e => .err ("failed to list deployments: " ++ e)
  | .ok deps => checkPods deps pods

/-- The function `validateNamespace` (startSymptionCollection.go lines 237-243):
a namespace Get; any error from the call is wrapped into a does-not-exist
error. `nsGet` is the result of the underlying API Get. -/
def validateNamespace (nsGet : Except String Unit) (ns : String) : Except String Unit :=
  match nsGet with
  | .error e => .error ("namespace " ++ ns ++ " does not exist: " ++ e)
  | .ok _ => .ok ()

/-- The method `Client.NamespaceExists` (pkg/kubernetes client, lines 68-75):
on ANY error from `GetNamespace` it returns `(false, nil)`; the error is never
propagated. The pair is (exists, returned error). -/
def NamespaceExists (nsGet : Except String Unit) : Bool × Option String :=
  match nsGet with
  | .error _ => (false, none)
  | .ok _ => (true, none)

/-- The method `Client.IsDeploymentReady` (pkg/kubernetes client, lines 98-109):
get the deployment (propagating errors), then dereference `Spec.Replicas`
without a nil guard (crash when nil) and compare `Status.ReadyReplicas`. -/
def IsDeploymentReady (depGet : Except String Deployment) : Res String Bool :=
  match depGet with
  | .error e => .err e
  | .ok d =>
    match d.specReplicas with
    | none => .crash
    | some want =>
      if d.readyReplicas < want then .ok false else .ok true

/-- The method `Collector.validateNamespace` (pkg/symptom collector, lines
217-226): call `NamespaceExists`, propagate its (always-nil) error, then fail
with a does-not-exist error when the boolean is false. -/
def collectorValidateNamespace (nsGet : Except String Unit) (ns : String) :
    Except String Unit :=
  match (NamespaceExists nsGet).2 with
  | some e => .error e
  | none =>
    if (NamespaceExists nsGet).1 then .ok ()
    else .error ("namespace " ++ ns ++ " does not exist")

/-- Identifiers 1-9 of the nine routines started by `StartSymptomCollection`:
1 trace-enable, 2 pcap-enable, 3 exerciser (pybot), 4-8 the five log watchers,
9 the completion monitor. -/
def symptomRoutineIds : List Nat := [1, 2, 3, 4, 5, 6, 7, 8, 9]

/-- Observable outcome of running `StartSymptomCollection`: `log.Fatalf` exits
the process (exit code 1) with no goroutine started and no channel created;
`panicked` models a Go runtime panic during validation; `ran` records the
started routines and the capacity of the error channel it created. -/
inductive SessionOutcome where
  | fatalExit (exitCode : Nat)
  | panicked
  | ran (startedTasks : List Nat) (chanCapacity : Nat)
deriving DecidableEq

/-- The function `StartSymptomCollection` (startSymptionCollection.go lines
106-234) up to its fan-out decision: validate the namespace, then the
deployments; on any validation error call `log.Fatalf` (exit code 1, nothing
started); otherwise create the capacity-100 error channel and start the nine
routines. -/
def startSymptomCollection (nsGet : Except String Unit)
    (depsGet : Except String (List Deployment)) (ns : String)
    (pods : List String) : SessionOutcome :=
  match validateNamespace nsGet ns with
  | .error _ => .fatalExit 1
  | .ok _ =>
    match validateDeployments depsGet pods with
    | .err _ => .fatalExit 1
    | .crash => .panicked
    | .ok _ => .ran symptomRoutineIds 100

/-- Routines actually started for an outcome: none unless the fan-out ran. -/
def SessionOutcome.startedTaskList : SessionOutcome → List Nat
  | .ran ts _ => ts
  | _ => []

/-- Whether the error channel was ever created (it is created only after both
validation checks pass). -/
def SessionOutcome.channelCreated : SessionOutcome → Bool
  | .ran _ _ => true
  | _ => false

/-- Whether the cleanup/artifact-consolidation path is reachable for the
outcome (only after the fan-out ran). -/
def SessionOutcome.producesArtifacts : SessionOutcome → Bool
  | .ran _ _ => true
  | _ => false

/-- Process exit code recorded by the outcome, when the process exited. -/
def SessionOutcome.exitCode : SessionOutcome → Option Nat
  | .fatalExit c => some c
  | _ => none

/-- First deployment whose name contains the fragment: the deployment the
source code actually inspects. -/
def firstMatch (deps : List Deployment) (p : String) : Option Deployment :=
  deps.find? (fun d => goContains d.name p)

/-- Readiness of one deployment as the code computes it: the desired-replica
pointer is non-nil and ready-replicas are not below it. -/
def depReady (d : Deployment) : Bool :=
  match d.specReplicas with
  | none => false
  | some want => !(d.readyReplicas < want)

/-- Number of deployments whose name contains the fragment (the claim speaks
of EXACTLY ONE such deployment). -/
def matchingDeploymentCount (deps : List Deployment) (p : String) : Nat :=
  (deps.filter (fun d => goContains d.name p)).length

/-!
Trace model of the fan-out / join / close protocol of `StartSymptomCollection`
(startSymptionCollection.go lines 141-231). Each of the nine routines is a
goroutine registered with the wait group (`wg.Add(1)` / `defer wg.Done()`);
the main goroutine executes `wg.Wait()` and only then `close(errorChan)`.
An event is either a send on the error channel by a routine, the completion
(`wg.Done`) of a routine, or the close of the channel. Each routine
contributes a fixed finite event sequence read off the code: routines 1-3 and
9 never send; each watcher (4-8) sends exactly once (the simulated detection
at iteration i = 5 of `watchLogFile`) before finishing. The error-monitoring
consumer goroutine only receives and is not in the wait group, so it produces
no events. A schedule is an arbitrary interleaving: any order of enabled
moves; `close` is enabled only once every routine has finished, which is
exactly the `wg.Wait()` barrier. -/

/-- Event visible in the orchestrator trace. -/
inductive Ev where
  | send (t : Nat)
  | done (t : Nat)
  | closeCh
deriving DecidableEq

/-- Per-routine event sequences of the nine started goroutines, in the order
the routines are started (routine ids 1-9). -/
def routineEvents : List (List Ev) :=
  [[.done 1], [.done 2], [.done 3],
   [.send 4, .done 4], [.send 5, .done 5], [.send 6, .done 6],
   [.send 7, .done 7], [.send 8, .done 8], [.done 9]]

/-- Orchestrator state: remaining events of each routine, whether the error
channel has been closed, and the trace of events so far. -/
structure OrchSt where
  pending : List (List Ev)
  closed : Bool
  log : List Ev
deriving DecidableEq

/-- Scheduler move: let routine number `i` (0-based position) take its next
step, or let the main goroutine run `wg.Wait(); close(errorChan)`. -/
inductive Move where
  | task (i : Nat)
  | close
deriving DecidableEq

/-- Initial orchestrator state right after the fan-out. -/
def orchInit : OrchSt := { pending := routineEvents, closed := false, log := [] }

/-- One scheduling step. A `task i` move emits the next event of routine `i`
(disabled when the routine has finished). The `close` move is the main
goroutine passing `wg.Wait()` and closing the channel: it is enabled only when
every routine has emitted all its events (all `wg.Done` calls happened) and
the channel is not yet closed. -/
def orchStep (s : OrchSt) (m : Move) : Option OrchSt :=
  match m with
  | .task i =>
    match s.pending.get? i with
    | some (e :: rest) =>
      some { pending := s.pending.set i rest, closed := s.closed, log := s.log ++ [e] }
    | _ => none
  | .close =>
    if s.closed then none
    else if s.pending.all List.isEmpty then
      some { pending := s.pending, closed := true, log := s.log ++ [Ev.closeCh] }
    else none

/-- Run a schedule from a state; `none` means the schedule tried a disabled
move (a blocked goroutine cannot run). -/
def orchRun (s : OrchSt) : List Move → Option OrchSt
  | [] => some s
  | m :: ms =>
    match orchStep s m with
    | some s2 => orchRun s2 ms
    | none => none

/-- A concrete complete schedule: run every routine to completion, then close. -/
def c1Schedule : List Move :=
  [.task 0, .task 1, .task 2, .task 3, .task 3, .task 4, .task 4,
   .task 5, .task 5, .task 6, .task 6, .task 7, .task 7, .task 8, .close]

/-- The state reached by `c1Schedule`. -/
def c1Final : OrchSt :=
  { pending := [[], [], [], [], [], [], [], [], []]
    closed := true
    log := [.done 1, .done 2, .done 3, .send 4, .done 4, .send 5, .done 5,
            .send 6, .done 6, .send 7, .done 7, .send 8, .done 8, .done 9, .closeCh] }

/-!
Model of the bounded error channel (`errorChan := make(chan ErrorEvent, 100)`,
both orchestrator variants). Go channel semantics: a send enqueues when the
buffer holds fewer than `cap` elements and otherwise blocks the producer (the
send statement has no drop path); a receive dequeues the oldest element and
blocks on an empty buffer. The state additionally records the full sequences
of sent and delivered events, so that conservation can be stated. -/

/-- Bounded-channel state. Events are drawn from `Nat` placeholders; only
their identity matters for conservation. -/
structure ChanSt where
  cap : Nat
  buf : List Nat
  delivered : List Nat
  sent : List Nat
deriving DecidableEq

/-- Producer send or consumer receive. -/
inductive ChanMove where
  | send (e : Nat)
  | recv
deriving DecidableEq

/-- The channel as created by the orchestrator: capacity 100, empty. -/
def chanInit : ChanSt := { cap := 100, buf := [], delivered := [], sent := [] }

/-- Go channel step semantics: `send` is enabled only below capacity (a full
buffer blocks the producer; there is no transition that discards the event);
`recv` is enabled only on a non-empty buffer. -/
def chanStep (c : ChanSt) (m : ChanMove) : Option ChanSt :=
  match m with
  | .send e =>
    if c.buf.length < c.cap then
      some { c with buf := c.buf ++ [e], sent := c.sent ++ [e] }
    else none
  | .recv =>
    match c.buf with
    | e :: rest => some { c with buf := rest, delivered := c.delivered ++ [e] }
    | [] => none

/-- Run a sequence of channel operations. -/
def chanRun (c : ChanSt) : List ChanMove → Option ChanSt
  | [] => some c
  | m :: ms =>
    match chanStep c m with
    | some c2 => chanRun c2 ms
    | none => none

/-!
Model of `Collector.watchLogFile` (pkg/symptom collector, lines 285-315) and
of the termination behaviour of `Collector.StartCollection` (lines 116-214).
The watcher loop has exactly one exit: the `ctx.Done()` branch of its
`select`; on every tick it otherwise keeps polling. The `symptom-collection`
command builds the context with `context.Background()` and never cancels it,
so the cancellation signal is constantly absent. Termination is observed
through a fuel parameter: `watchTerminated cancelled tick fuel` is whether the
loop returns within `fuel` ticks starting at tick `tick`. -/

/-- Whether the watcher loop of `Collector.watchLogFile` returns within `fuel`
ticks: it returns at the first tick where the context reports Done, and never
otherwise. -/
def watchTerminated (cancelled : Nat → Bool) (tick : Nat) : Nat → Bool
  | 0 => false
  | fuel + 1 => if cancelled tick then true else watchTerminated cancelled (tick + 1) fuel

/-- Cancellation signal of a context built from `context.Background` and never
cancelled (cmd symptom-collection, `ctx := context.Background()`). -/
def backgroundCancelled : Nat → Bool := fun _ => false

/-- The monitored paths of `Collector.StartCollection` (lines 166-175): the
configured paths, or the five fixed defaults when the configuration is empty.
The result is never empty. -/
def collectionLogPaths (configPaths : List String) : List String :=
  if configPaths.isEmpty then
    ["/cmconfig.log", "/logstore/TspCore", "/RTPTraceError", "/Envoy", "/dumplog"]
  else configPaths

/-- Routines 1-3 and 9 of `Collector.StartCollection` finish on their own
(bounded sleeps), so they always reach `wg.Done`. -/
def otherRoutinesTerminate : Bool := true

/-- Whether `Collector.StartCollection` returns within `fuel` ticks: its
`wg.Wait()` returns exactly when routines 1-3 and 9 and every log watcher
have called `wg.Done`, and each watcher terminates only by cancellation. -/
def startCollectionReturns (cancelled : Nat → Bool) (configPaths : List String)
    (fuel : Nat) : Bool :=
  otherRoutinesTerminate &&
    (collectionLogPaths configPaths).all (fun _ => watchTerminated cancelled 0 fuel)

/-- Whether `close(errorChan)` has executed within `fuel` ticks: the close
statement is directly after `wg.Wait()`, so it runs only if the wait returned. -/
def errorChanClosed (cancelled : Nat → Bool) (configPaths : List String)
    (fuel : Nat) : Bool :=
  startCollectionReturns cancelled configPaths fuel

/-!
Log-watcher keyword matching and the session report. In both copies of
`watchLogFile` the body that reads the file and compares it against the
keyword list is left as a comment in the source ("In real implementation,
read file and check for keywords"); only the keyword list itself and the
emission of one event per detection onto the channel are present. The
matching predicate and the report assembly are therefore modelled from the
spec and are marked as such below. -/

/-- ErrorEvent of the pkg/symptom collector: timestamp, source (the watched
path), message. -/
structure ErrorEvent where
  timestamp : Nat
  source : String
  message : String
deriving DecidableEq

/-- Default error keywords (startSymptionCollection.go line 25 and
`Collector.watchLogFile` line 288). -/
def defaultErrorKeywords : List String :=
  ["error", "ERROR", "fatal", "FATAL", "exception", "EXCEPTION", "panic", "PANIC"]

/-- The five default watched paths (startSymptionCollection.go lines 26-32). -/
def logFiles : List String :=
  ["/cmconfig.log", "/logstore/TspCore", "/RTPTraceError", "/Envoy", "/dumplog"]

/-- Modelled from the spec: the keyword comparison inside `watchLogFile` is
missing from the source (present only as a comment); per the spec a line is a
hit when ANY configured keyword occurs in it as a case-sensitive exact
substring. -/
def lineMatches (keywords : List String) (line : String) : Bool :=
  keywords.any (fun k => goContains line k)

/-- Modelled from the spec: one watcher inspecting its path emits one
`ErrorEvent` per matching line, tagged with the watched path as the source.
`lines` are the (timestamp, content) pairs appended to the path. -/
def watchEmit (path : String) (keywords : List String)
    (lines : List (Nat × String)) : List ErrorEvent :=
  lines.filterMap (fun tl =>
    if lineMatches keywords tl.2 then
      some { timestamp := tl.1, source := path, message := tl.2 }
    else none)

/-- Events of a whole session: the concatenation of what each watcher emitted,
one watcher per monitored path. -/
def sessionEvents (paths : List String) (keywords : List String)
    (linesAt : String → List (Nat × String)) : List ErrorEvent :=
  (paths.map (fun p => watchEmit p keywords (linesAt p))).flatten

/-- Session report: total duration, total event count, per-source counts. The
duration is computed by the source (`time.Since(config.StartTime)`); the
counts are modelled from the spec, since `cleanup` only logs fixed lines. -/
structure SessionReport where
  durationSeconds : Nat
  totalEvents : Nat
  perSource : List (String × Nat)
deriving DecidableEq

/-- Modelled from the spec: assemble the session report from the collected
events — total duration, total event count, and one per-source counter for
every monitored path. -/
def mkReport (dur : Nat) (events : List ErrorEvent) (paths : List String) :
    SessionReport :=
  { durationSeconds := dur
    totalEvents := events.length
    perSource := paths.map (fun p => (p, (events.filter (fun e => e.source == p)).length)) }

/-- Concrete line feed for the five default paths: only `/cmconfig.log` ever
receives keyword-matching lines (two of its three lines match). -/
def c8Lines : String → List (Nat × String) := fun p =>
  if p == "/cmconfig.log" then
    [(3, "found error in config"), (4, "all good"), (9, "FATAL crash")]
  else [(1, "ok line")]

/-!
Timing of the `Exercising` to `Draining` transition. The exerciser
(`executePybot`) takes 2 simulated seconds; Routine 9 starts cleanup after a
FIXED `time.Sleep(10 * time.Second)`, although its own comments say it should
wait for the pybot completion ("Once the pybot cmd status is set to
complete" / "In real implementation, wait for pybot completion signal"). No
session timeout exists in the code; the configured default in the spec is 10
minutes. -/

/-- Duration of the exerciser: `executePybot` sleeps 2 seconds. -/
def pybotDurationSeconds : Nat := 2

/-- Fixed delay of Routine 9 before it starts cleanup: 10 seconds. -/
def routine9DelaySeconds : Nat := 10

/-- Configured default session timeout (10 minutes), from the spec
configuration section. -/
def defaultSessionTimeoutSeconds : Nat := 600

/-- Time at which the code starts Draining (cleanup), as a function of the
exerciser completion time and the session timeout: the code ignores both and
always uses the fixed Routine 9 delay. -/
def codeDrainStart (_exerciserDone _timeoutSec : Nat) : Nat :=
  routine9DelaySeconds

/-- Draining start time required by the claim: whichever comes first of the
exerciser completion and the session timeout. This definition follows the
words of the spec, for comparison with `codeDrainStart`. -/
def specDrainStart (exerciserDone timeoutSec : Nat) : Nat :=
  min exerciserDone timeoutSec

/-- Invariant of the bounded channel: the capacity is the one the orchestrator
chose, every sent event is either delivered or still buffered (in order), and
the buffer never exceeds the capacity. -/
def ChanInv (c : ChanSt) : Prop :=
  c.cap = 100 ∧ c.delivered ++ c.buf = c.sent ∧ c.buf.length ≤ c.cap

/-- Bookkeeping for one routine: its full event list splits into a consumed
part, all of whose events already appear in the trace, and the part still
pending. -/
def TaskTracks (log full rem : List Ev) : Prop :=
  ∃ c, full = c ++ rem ∧ ∀ e ∈ c, e ∈ log

/-- Invariant of the orchestrator trace model. -/
def OrchInv (s : OrchSt) : Prop :=
  s.pending.length = routineEvents.length ∧
  (∀ i, i < routineEvents.length →
    ∃ full rem, routineEvents.get? i = some full ∧ s.pending.get? i = some rem ∧
      TaskTracks s.log full rem) ∧
  (s.closed = false → Ev.closeCh ∉ s.log) ∧
  (s.closed = true → ∃ pre, s.log = pre ++ [Ev.closeCh] ∧ Ev.closeCh ∉ pre ∧
    s.pending.all List.isEmpty = true)

/-- Concrete deployment list with no deployment matching the fragment
`uecm` (the preflight-failure scenario of the spec). -/
def c2Deps : List Deployment :=
  [{ name := "ausf-deployment", readyReplicas := 1, specReplicas := some 1 }]

/-- Concrete deployment list in which TWO ready deployments match the
fragment `uecm`. -/
def c3Deps : List Deployment :=
  [{ name := "uecm-a", readyReplicas := 1, specReplicas := some 1 },
   { name := "uecm-b", readyReplicas := 1, specReplicas := some 1 }]

/-- Concrete deployment whose desired-replica pointer is nil. -/
def c10Dep : Deployment :=
  { name := "uecm-deployment", readyReplicas := 1, specReplicas := none }

/-- Concrete channel schedule: two sends, then two receives. -/
def c7Moves : List ChanMove := [.send 7, .send 8, .recv, .recv]

/-- Channel state after `c7Moves`. -/
def c7FinalChan : ChanSt := { cap := 100, buf := [], delivered := [7, 8], sent := [7, 8] }

/-! Helper lemmas about the deployment validator. -/

theorem checkPod_ok_iff (deps : List Deployment) (p : String) :
    checkPod deps p = .ok () ↔ ∃ d, firstMatch deps p = some d ∧ depReady d = true := by
  induction deps with
  | nil => simp [checkPod, firstMatch]
  | cons d rest ih =>
    by_cases hg : goContains d.name p
    · cases hs : d.specReplicas with
      | none => simp [checkPod, firstMatch, List.find?_cons, hg, hs, depReady]
      | some want =>
        by_cases hr : d.readyReplicas < want
        · simp [checkPod, firstMatch, List.find?_cons, hg, hs, hr, depReady]
        · simp [checkPod, firstMatch, List.find?_cons, hg, hs, hr, depReady]
    · simpa [checkPod, firstMatch, List.find?_cons, hg] using ih

theorem checkPods_ok_iff (deps : List Deployment) (pods : List String) :
    checkPods deps pods = .ok () ↔ ∀ p ∈ pods, checkPod deps p = .ok () := by
  induction pods with
  | nil => simp [checkPods]
  | cons p ps ih =>
    cases hc : checkPod deps p with
    | ok u => cases u; simp [checkPods, hc, ih]
    | err e => simp [checkPods, hc]
    | crash => simp [checkPods, hc]

theorem checkPod_not_found (deps : List Deployment) (p : String)
    (h : firstMatch deps p = none) :
    checkPod deps p = .err ("deployment for pod " ++ p ++ " not found") := by
  induction deps with
  | nil => simp [checkPod]
  | cons d rest ih =>
    by_cases hg : goContains d.name p
    · simp [firstMatch, List.find?_cons, hg] at h
    · simp only [firstMatch, List.find?_cons, hg] at h
      simpa [checkPod, hg] using ih h

theorem checkPod_not_ready (deps : List Deployment) (p : String) (d : Deployment)
    (want : Int) (h : firstMatch deps p = some d) (hs : d.specReplicas = some want)
    (hr : d.readyReplicas < want) :
    checkPod deps p = .err ("deployment " ++ d.name ++ " is not ready") := by
  induction deps with
  | nil => simp [firstMatch] at h
  | cons d0 rest ih =>
    by_cases hg : goContains d0.name p
    · have hd : d0 = d := by simpa [firstMatch, List.find?_cons, hg] using h
      subst hd
      simp [checkPod, hg, hs, hr]
    · simp only [firstMatch, List.find?_cons, hg] at h
      simpa [checkPod, hg] using ih h

/-- C9: for every result of the underlying namespace Get call, the cluster
client method NamespaceExists returns a nil error; any failure of the Get —
connectivity or authorization included, not only a missing namespace — yields
(false, nil), so the Collector validation fails with its namespace-does-not-
exist error, indistinguishable from a genuinely absent namespace. -/
theorem c9_namespace_errors_swallowed :
    (∀ nsGet : Except String Unit, (NamespaceExists nsGet).2 = none) ∧
    (∀ e, NamespaceExists (.error e) = (false, none)) ∧
    (∀ e ns, collectorValidateNamespace (.error e) ns =
      .error ("namespace " ++ ns ++ " does not exist")) ∧
    (∀ e1 e2 ns, collectorValidateNamespace (.error e1) ns =
      collectorValidateNamespace (.error e2) ns) := by
  refine ⟨fun g => ?_, fun e => rfl, fun e ns => rfl, fun e1 e2 ns => rfl⟩
  cases g <;> rfl

/-- C10: the deployment-readiness checks dereference the desired-replica
pointer without a nil guard: whenever the first deployment matching a
fragment has a nil Spec.Replicas, validateDeployments crashes (Go runtime
panic) instead of returning a validation error, and so does
IsDeploymentReady on such a deployment. -/
theorem c10_nil_replicas_dereference :
    (∀ (d : Deployment) (rest : List Deployment) (p : String) (pods : List String),
      d.specReplicas = none → goContains d.name p = true →
      validateDeployments (.ok (d :: rest)) (p :: pods) = .crash) ∧
    (∀ d : Deployment, d.specReplicas = none → IsDeploymentReady (.ok d) = .crash) := by
  constructor
  · intro d rest p pods hs hg
    simp [validateDeployments, checkPods, checkPod, hg, hs]
  · intro d hs
    simp [IsDeploymentReady, hs]

/-- Witness for C10 at a concrete deployment with a nil replica pointer. -/
theorem c10_nil_replicas_dereference_witness :
    c10Dep.specReplicas = none ∧
    validateDeployments (.ok [c10Dep]) ["uecm"] = .crash ∧
    IsDeploymentReady (.ok c10Dep) = .crash :=
  ⟨rfl, c10_nil_replicas_dereference.1 c10Dep [] "uecm" [] rfl (by decide),
   c10_nil_replicas_dereference.2 c10Dep rfl⟩

/-- C2: whenever preflight validation fails (the namespace check or the
deployment check returns an error), StartSymptomCollection exits through
log.Fatalf with exit code 1: no routine is started, the error channel is
never created (so nothing can be written to it), and no artifacts are
produced. -/
theorem c2_validation_failure_no_tasks (nsGet : Except String Unit)
    (depsGet : Except String (List Deployment)) (ns : String) (pods : List String)
    (h : (∃ e, validateNamespace nsGet ns = .error e) ∨
         (∃ e, validateDeployments depsGet pods = .err e)) :
    startSymptomCollection nsGet depsGet ns pods = .fatalExit 1 ∧
    (startSymptomCollection nsGet depsGet ns pods).startedTaskList = [] ∧
    (startSymptomCollection nsGet depsGet ns pods).channelCreated = false ∧
    (startSymptomCollection nsGet depsGet ns pods).producesArtifacts = false ∧
    (startSymptomCollection nsGet depsGet ns pods).exitCode = some 1 := by
  have hf : startSymptomCollection nsGet depsGet ns pods = .fatalExit 1 := by
    cases nsGet with
    | error e => simp [startSymptomCollection, validateNamespace]
    | ok u =>
      cases u
      rcases h with ⟨e, he⟩ | ⟨e, he⟩
      · simp [validateNamespace] at he
      · simp [startSymptomCollection, validateNamespace, he]
  rw [hf]
  exact ⟨rfl, rfl, rfl, rfl, rfl⟩

/-- Witness for C2: namespace default exists but no deployment matches the
fragment uecm, so the session dies in validation with nothing started. -/
theorem c2_validation_failure_no_tasks_witness :
    startSymptomCollection (.ok ()) (.ok c2Deps) "default" ["uecm"] = .fatalExit 1 ∧
    (startSymptomCollection (.ok ()) (.ok c2Deps) "default" ["uecm"]).startedTaskList = [] ∧
    (startSymptomCollection (.ok ()) (.ok c2Deps) "default" ["uecm"]).channelCreated = false ∧
    (startSymptomCollection (.ok ()) (.ok c2Deps) "default" ["uecm"]).producesArtifacts = false ∧
    (startSymptomCollection (.ok ()) (.ok c2Deps) "default" ["uecm"]).exitCode = some 1 :=
  c2_validation_failure_no_tasks (.ok ()) (.ok c2Deps) "default" ["uecm"]
    (Or.inr ⟨"deployment for pod uecm not found", by decide⟩)

/-- C4 (code bug): the transition into Draining is driven by a fixed
10-second sleep in Routine 9, not by the exerciser completion signal or a
session timeout: with the exerciser finishing at 2 seconds and the default
10-minute timeout, the code starts cleanup at 10 seconds, which is neither of
the two, and codeDrainStart ignores both of its arguments. -/
theorem c4_draining_uses_fixed_sleep :
    codeDrainStart pybotDurationSeconds defaultSessionTimeoutSeconds = 10 ∧
    specDrainStart pybotDurationSeconds defaultSessionTimeoutSeconds = 2 ∧
    codeDrainStart pybotDurationSeconds defaultSessionTimeoutSeconds ≠
      specDrainStart pybotDurationSeconds defaultSessionTimeoutSeconds ∧
    (∀ exerciserDone timeoutSec : Nat,
      codeDrainStart exerciserDone timeoutSec = routine9DelaySeconds) :=
  ⟨rfl, rfl, by decide, fun _ _ => rfl⟩

/-- Counterexample to C3 as stated: with namespace present and TWO ready
deployments both containing the fragment uecm, validation succeeds although
there is not exactly one matching deployment. -/
theorem c3_exactly_one_counterexample :
    startSymptomCollection (.ok ()) (.ok c3Deps) "miniudm" ["uecm"] =
      .ran symptomRoutineIds 100 ∧
    matchingDeploymentCount c3Deps "uecm" = 2 := by
  constructor <;> decide

/-- C3 (amended): the validator succeeds if and only if the namespace Get
succeeded and, for every fragment, AT LEAST ONE deployment name contains the
fragment and the FIRST such deployment has a non-nil desired-replica count
that its ready-replica count reaches; it fails with the not-found error when
no deployment matches a fragment, and with the not-ready error when the first
match has a desired-replica count above its ready-replica count. -/
theorem c3_validator_first_match (nsGet : Except String Unit)
    (deps : List Deployment) (ns : String) (pods : List String) :
    (startSymptomCollection nsGet (.ok deps) ns pods = .ran symptomRoutineIds 100 ↔
      nsGet = .ok () ∧ ∀ p ∈ pods, ∃ d, firstMatch deps p = some d ∧ depReady d = true) ∧
    (∀ p, firstMatch deps p = none →
      checkPod deps p = .err ("deployment for pod " ++ p ++ " not found")) ∧
    (∀ p d want, firstMatch deps p = some d → d.specReplicas = some want →
      d.readyReplicas < want →
      checkPod deps p = .err ("deployment " ++ d.name ++ " is not ready")) := by
  refine ⟨?_, fun p h => checkPod_not_found deps p h,
    fun p d want h hs hr => checkPod_not_ready deps p d want h hs hr⟩
  have key : checkPods deps pods = Res.ok () ↔
      ∀ p ∈ pods, ∃ d, firstMatch deps p = some d ∧ depReady d = true := by
    rw [checkPods_ok_iff]
    exact forall₂_congr fun p _ => checkPod_ok_iff deps p
  cases nsGet with
  | error e => simp [startSymptomCollection, validateNamespace]
  | ok u =>
    cases u
    cases hc : checkPods deps pods with
    | ok v =>
      cases v
      refine iff_of_true ?_ ⟨rfl, key.mp hc⟩
      simp [startSymptomCollection, validateNamespace, validateDeployments, hc]
    | err e =>
      simp only [startSymptomCollection, validateNamespace, validateDeployments, hc]
      refine iff_of_false (by simp) ?_
      rintro ⟨-, hall⟩
      rw [key.mpr hall] at hc
      cases hc
    | crash =>
      simp only [startSymptomCollection, validateNamespace, validateDeployments, hc]
      refine iff_of_false (by simp) ?_
      rintro ⟨-, hall⟩
      rw [key.mpr hall] at hc
      cases hc

/-- Witness for the amended C3: a single ready matching deployment makes the
session start its routines. -/
theorem c3_validator_first_match_witness :
    startSymptomCollection (.ok ()) (.ok c2Deps) "default" ["ausf"] =
      .ran symptomRoutineIds 100 :=
  (c3_validator_first_match (.ok ()) c2Deps "default" ["ausf"]).1.mpr
    ⟨rfl, by decide⟩

/-! Helper lemma for C5: a watcher whose context is never cancelled never
leaves its loop, whatever the fuel. -/

theorem watchTerminated_background (fuel tick : Nat) :
    watchTerminated backgroundCancelled tick fuel = false := by
  induction fuel generalizing tick with
  | zero => rfl
  | succ n ih => simpa [watchTerminated, backgroundCancelled] using ih (tick + 1)

/-- C5: in the package-based collector, for every configuration the monitored
path set is non-empty, each log watcher loops until its context is cancelled,
and the symptom-collection command never cancels the context it builds from
context.Background, so StartCollection never returns (its wait-group join
blocks forever) and the error channel is never closed. -/
theorem c5_collection_never_returns (configPaths : List String) (fuel : Nat) :
    collectionLogPaths configPaths ≠ [] ∧
    startCollectionReturns backgroundCancelled configPaths fuel = false ∧
    errorChanClosed backgroundCancelled configPaths fuel = false := by
  have hne : collectionLogPaths configPaths ≠ [] := by
    by_cases h : configPaths.isEmpty
    · simp [collectionLogPaths, h]
    · simp only [collectionLogPaths, h, if_neg, Bool.false_eq_true, not_false_eq_true]
      simpa [List.isEmpty_iff] using h
  have hret : startCollectionReturns backgroundCancelled configPaths fuel = false := by
    obtain ⟨x, xs, hx⟩ := List.exists_cons_of_ne_nil hne
    simp [startCollectionReturns, otherRoutinesTerminate, hx, List.all_cons,
      watchTerminated_background]
  exact ⟨hne, hret, hret⟩

/-! Helper lemma for C6 and C8: the events a watcher emits are exactly the
matching lines, each mapped to one event tagged with the watched path. -/

theorem watchEmit_eq (path : String) (keywords : List String)
    (lines : List (Nat × String)) :
    watchEmit path keywords lines =
      (lines.filter (fun tl => lineMatches keywords tl.2)).map
        (fun tl => { timestamp := tl.1, source := path, message := tl.2 }) := by
  induction lines with
  | nil => rfl
  | cons tl rest ih =>
    by_cases h : lineMatches keywords tl.2
    · simp [watchEmit, List.filterMap_cons, List.filter_cons, h] at ih ⊢
      exact ih
    · simp [watchEmit, List.filterMap_cons, List.filter_cons, h] at ih ⊢
      exact ih

/-- C6: a log watcher emits one ErrorEvent per matching line, every emitted
event is tagged with the watched path as its source, a line matches exactly
when some configured keyword occurs in it as a case-sensitive exact
substring, and in particular a line containing Error matches neither the
keyword error nor any default keyword, while a lowercase error line does. -/
theorem c6_keyword_matching (path : String) (keywords : List String)
    (lines : List (Nat × String)) :
    (watchEmit path keywords lines).length =
      (lines.filter (fun tl => lineMatches keywords tl.2)).length ∧
    (∀ e ∈ watchEmit path keywords lines, e.source = path) ∧
    (∀ line, lineMatches keywords line = true ↔
      ∃ k ∈ keywords, goContains line k = true) ∧
    lineMatches ["error"] "An Error occurred" = false ∧
    lineMatches defaultErrorKeywords "An Error occurred" = false ∧
    lineMatches defaultErrorKeywords "An error occurred" = true := by
  refine ⟨?_, ?_, ?_, by decide, by decide, by decide⟩
  · rw [watchEmit_eq]
    exact List.length_map _ _
  · intro e he
    rw [watchEmit_eq] at he
    obtain ⟨tl, -, rfl⟩ := List.mem_map.mp he
    rfl
  · intro line
    simp [lineMatches, List.any_eq_true]

/-- Witness for C6 at one concrete matching line. -/
theorem c6_keyword_matching_witness :
    (watchEmit "/cmconfig.log" defaultErrorKeywords [(3, "found error in config")]).length =
      ([((3 : Nat), "found error in config")].filter
        (fun tl => lineMatches defaultErrorKeywords tl.2)).length ∧
    lineMatches defaultErrorKeywords "An Error occurred" = false :=
  ⟨(c6_keyword_matching "/cmconfig.log" defaultErrorKeywords
      [(3, "found error in config")]).1,
   (c6_keyword_matching "/cmconfig.log" defaultErrorKeywords
      [(3, "found error in config")]).2.2.2.2.1⟩

/-! Invariant proofs for the bounded channel. -/

theorem chanStep_inv (c c2 : ChanSt) (m : ChanMove)
    (h : chanStep c m = some c2) (hi : ChanInv c) : ChanInv c2 := by
  obtain ⟨hcap, hcons, hlen⟩ := hi
  cases m with
  | send e =>
    simp only [chanStep] at h
    by_cases hfit : c.buf.length < c.cap
    · rw [if_pos hfit] at h
      injection h with h
      subst h
      refine ⟨hcap, ?_, ?_⟩
      · simpa [← List.append_assoc] using congrArg (· ++ [e]) hcons
      · simpa [List.length_append] using hfit
    · rw [if_neg hfit] at h
      cases h
  | recv =>
    simp only [chanStep] at h
    cases hb : c.buf with
    | nil => rw [hb] at h; cases h
    | cons e rest =>
      rw [hb] at h
      injection h with h
      subst h
      refine ⟨hcap, ?_, ?_⟩
      · rw [← hcons, hb]
        simp
      · have hlen2 := hlen
        rw [hb] at hlen2
        simp only [List.length_cons] at hlen2
        show rest.length ≤ c.cap
        omega

theorem chanRun_inv (ms : List ChanMove) (c c2 : ChanSt)
    (h : chanRun c ms = some c2) (hi : ChanInv c) : ChanInv c2 := by
  induction ms generalizing c with
  | nil =>
    simp only [chanRun] at h
    injection h with h
    subst h
    exact hi
  | cons m rest ih =>
    simp only [chanRun] at h
    cases hs : chanStep c m with
    | none => rw [hs] at h; cases h
    | some cmid =>
      rw [hs] at h
      exact ih cmid h (chanStep_inv c cmid m hs hi)

/-- C7: through any schedule of operations on the capacity-100 error channel,
the delivered events followed by the still-buffered events are exactly the
sent events in order (so no event is ever lost), the buffer never exceeds the
capacity, once the buffer is drained the delivered count equals the emitted
count, and a send on a full channel is not enabled at all: the producer
blocks, there is no transition that drops the event. -/
theorem c7_channel_blocks_no_loss (ms : List ChanMove) (c : ChanSt)
    (h : chanRun chanInit ms = some c) :
    c.delivered ++ c.buf = c.sent ∧
    c.buf.length ≤ 100 ∧
    (c.buf = [] → c.delivered = c.sent) ∧
    (∀ e, 100 ≤ c.buf.length → chanStep c (.send e) = none) := by
  have hinv : ChanInv c := chanRun_inv ms chanInit c h ⟨rfl, rfl, by decide⟩
  obtain ⟨hcap, hcons, hlen⟩ := hinv
  refine ⟨hcons, hcap ▸ hlen, ?_, ?_⟩
  · intro hb
    rw [hb, List.append_nil] at hcons
    exact hcons
  · intro e hfull
    simp [chanStep, hcap, Nat.not_lt.mpr hfull]

/-- Witness for C7: two sends then two receives conserve the event sequence. -/
theorem c7_channel_blocks_no_loss_witness :
    c7FinalChan.delivered ++ c7FinalChan.buf = c7FinalChan.sent ∧
    c7FinalChan.buf.length ≤ 100 ∧
    (c7FinalChan.buf = [] → c7FinalChan.delivered = c7FinalChan.sent) ∧
    (∀ e, 100 ≤ c7FinalChan.buf.length → chanStep c7FinalChan (.send e) = none) :=
  c7_channel_blocks_no_loss c7Moves c7FinalChan (by decide)

/-! Invariant proofs for the orchestrator trace model. -/

theorem routineEvents_no_close : ∀ l ∈ routineEvents, Ev.closeCh ∉ l := by decide

theorem routine_done_mem :
    ∀ t ∈ symptomRoutineIds, ∃ l, l ∈ routineEvents ∧ Ev.done t ∈ l := by decide

theorem taskTracks_refl (log rem : List Ev) : TaskTracks log rem rem := by
  exact ⟨[], rfl, fun e he => absurd he (List.not_mem_nil e)⟩

theorem taskTracks_mono (log ext full rem : List Ev) (h : TaskTracks log full rem) :
    TaskTracks (log ++ ext) full rem := by
  obtain ⟨c, hc, hmem⟩ := h
  exact ⟨c, hc, fun e he => List.mem_append_left ext (hmem e he)⟩

theorem orchInit_inv : OrchInv orchInit := by
  refine ⟨rfl, ?_, fun _ => List.not_mem_nil _, fun hc => by cases hc⟩
  intro i hi
  have hg : routineEvents.get? i = some (routineEvents.get ⟨i, hi⟩) :=
    List.get?_eq_get hi
  exact ⟨_, _, hg, hg, taskTracks_refl _ _⟩

theorem orchStep_inv (s s2 : OrchSt) (m : Move)
    (h : orchStep s m = some s2) (hi : OrchInv s) : OrchInv s2 := by
  obtain ⟨hlen, htr, hnc, hcl⟩ := hi
  cases m with
  | task i =>
    simp only [orchStep] at h
    cases hp : s.pending.get? i with
    | none => rw [hp] at h; cases h
    | some l =>
      cases l with
      | nil => rw [hp] at h; cases h
      | cons e rest =>
        rw [hp] at h
        injection h with h
        subst h
        have hilt : i < s.pending.length := by
          by_contra hge
          rw [List.get?_eq_none.mpr (Nat.le_of_not_lt hge)] at hp
          cases hp
        have hiltR : i < routineEvents.length := hlen ▸ hilt
        obtain ⟨full, rem, hfull, hrem, c, hcc, hcm⟩ := htr i hiltR
        have hrr : rem = e :: rest := Option.some.inj (hrem.symm.trans hp)
        subst hrr
        have hfullmem : full ∈ routineEvents := List.get?_mem hfull
        have hncfull : Ev.closeCh ∉ full := routineEvents_no_close full hfullmem
        have hefull : e ∈ full := by
          rw [hcc]
          exact List.mem_append_right c (List.mem_cons_self e rest)
        have hene : e ≠ Ev.closeCh := fun hEq => hncfull (hEq ▸ hefull)
        refine ⟨by simpa using hlen, ?_, ?_, ?_⟩
        · intro j hj
          obtain ⟨fj, rj, hfj, hrj, htkj⟩ := htr j hj
          by_cases hij : i = j
          · subst hij
            have hrr2 : rj = e :: rest := Option.some.inj (hrj.symm.trans hp)
            subst hrr2
            refine ⟨fj, rest, hfj, List.get?_set_eq_of_lt rest hilt, ?_⟩
            obtain ⟨cj, hccj, hcmj⟩ := htkj
            refine ⟨cj ++ [e], by rw [hccj]; simp, ?_⟩
            intro x hx
            rcases List.mem_append.mp hx with hx1 | hx2
            · exact List.mem_append_left _ (hcmj x hx1)
            · rw [List.mem_singleton] at hx2
              subst hx2
              exact List.mem_append_right _ (List.mem_singleton.mpr rfl)
          · refine ⟨fj, rj, hfj, ?_, taskTracks_mono _ _ _ _ htkj⟩
            exact (List.get?_set_ne rest s.pending hij).trans hrj
        · intro hc2
          intro hmem
          rcases List.mem_append.mp hmem with h1 | h2
          · exact hnc hc2 h1
          · exact hene (List.mem_singleton.mp h2).symm
        · intro hc2
          obtain ⟨pre, hpre, hnin, hall⟩ := hcl hc2
          have hmem := List.all_eq_true.mp hall _ (List.get?_mem hp)
          simp at hmem
  | close =>
    simp only [orchStep] at h
    by_cases hcs : s.closed = true
    · rw [if_pos hcs] at h
      cases h
    · rw [if_neg hcs] at h
      have hcsf : s.closed = false := by
        revert hcs
        cases s.closed <;> simp
      by_cases hall : s.pending.all List.isEmpty = true
      · rw [if_pos hall] at h
        injection h with h
        subst h
        refine ⟨hlen, ?_, ?_, ?_⟩
        · intro j hj
          obtain ⟨fj, rj, hfj, hrj, htkj⟩ := htr j hj
          exact ⟨fj, rj, hfj, hrj, taskTracks_mono _ _ _ _ htkj⟩
        · intro hc2
          cases hc2
        · intro _
          exact ⟨s.log, rfl, hnc hcsf, hall⟩
      · rw [if_neg hall] at h
        cases h

theorem orchRun_inv (ms : List Move) (s s2 : OrchSt)
    (h : orchRun s ms = some s2) (hi : OrchInv s) : OrchInv s2 := by
  induction ms generalizing s with
  | nil =>
    simp only [orchRun] at h
    injection h with h
    subst h
    exact hi
  | cons m rest ih =>
    simp only [orchRun] at h
    cases hs : orchStep s m with
    | none => rw [hs] at h; cases h
    | some smid =>
      rw [hs] at h
      exact ih smid h (orchStep_inv s smid m hs hi)

/-- C1: for every schedule under which the session reaches the Closed state
(the channel got closed), the close appears exactly once in the trace, it
comes after the completion signal of every started routine (trace enable,
pcap enable, exerciser, the five log watchers, and the completion monitor all
passed the join barrier first), and no routine sends on the channel after the
close. -/
theorem c1_close_once_after_join (ms : List Move) (s : OrchSt)
    (h : orchRun orchInit ms = some s) (hc : s.closed = true) :
    s.log.count Ev.closeCh = 1 ∧
    (∃ pre, s.log = pre ++ [Ev.closeCh] ∧
      ∀ t ∈ symptomRoutineIds, Ev.done t ∈ pre) ∧
    (∀ i j, i < j → s.log.get? i = some Ev.closeCh →
      ∀ t, s.log.get? j ≠ some (Ev.send t)) := by
  have hinv := orchRun_inv ms orchInit s h orchInit_inv
  obtain ⟨hlen, htr, -, hcl⟩ := hinv
  obtain ⟨pre, hlog, hnin, hempty⟩ := hcl hc
  refine ⟨?_, ⟨pre, hlog, ?_⟩, ?_⟩
  · rw [hlog, List.count_append]
    rw [List.count_eq_zero.mpr hnin]
    simp
  · intro t ht
    obtain ⟨l, hlmem, hdone⟩ := routine_done_mem t ht
    obtain ⟨i, hi⟩ := List.get?_of_mem hlmem
    obtain ⟨hilt, -⟩ := List.get?_eq_some.mp hi
    obtain ⟨full, rem, hfull, hrem, c, hcc, hcm⟩ := htr i hilt
    have hfl : full = l := Option.some.inj (hfull.symm.trans hi)
    subst hfl
    have hremnil : rem = [] := by
      have hmem := List.all_eq_true.mp hempty _ (List.get?_mem hrem)
      exact List.isEmpty_iff.mp hmem
    subst hremnil
    rw [List.append_nil] at hcc
    subst hcc
    have hdlog : Ev.done t ∈ s.log := hcm _ hdone
    rw [hlog] at hdlog
    rcases List.mem_append.mp hdlog with h1 | h2
    · exact h1
    · simp at h2
  · intro i j hij hgi t
    have hlenlog : s.log.length = pre.length + 1 := by
      rw [hlog]
      simp
    have hipre : ¬ i < pre.length := by
      intro hlt
      have hp2 : pre.get? i = some Ev.closeCh := by
        rw [hlog, List.get?_append hlt] at hgi
        exact hgi
      exact hnin (List.get?_mem hp2)
    have hjlen : s.log.length ≤ j := by omega
    rw [List.get?_eq_none.mpr hjlen]
    simp

/-- Witness for C1: run all nine routines to completion and then close. -/
theorem c1_close_once_after_join_witness :
    c1Final.log.count Ev.closeCh = 1 ∧
    (∃ pre, c1Final.log = pre ++ [Ev.closeCh] ∧
      ∀ t ∈ symptomRoutineIds, Ev.done t ∈ pre) ∧
    (∀ i j, i < j → c1Final.log.get? i = some Ev.closeCh →
      ∀ t, c1Final.log.get? j ≠ some (Ev.send t)) :=
  c1_close_once_after_join c1Schedule c1Final (by decide) rfl

/-! Helper lemmas for the per-source report counts. -/

theorem watchEmit_filter_source_self (q : String) (ks : List String)
    (ls : List (Nat × String)) :
    (watchEmit q ks ls).filter (fun e => e.source == q) = watchEmit q ks ls := by
  apply List.filter_eq_self.mpr
  intro e he
  rw [watchEmit_eq] at he
  obtain ⟨tl, -, rfl⟩ := List.mem_map.mp he
  simp

theorem watchEmit_filter_other (q p : String) (hne : q ≠ p) (ks : List String)
    (ls : List (Nat × String)) :
    (watchEmit q ks ls).filter (fun e => e.source == p) = [] := by
  apply List.filter_eq_nil.mpr
  intro e he
  rw [watchEmit_eq] at he
  obtain ⟨tl, -, rfl⟩ := List.mem_map.mp he
  simp [hne]

theorem watchEmit_nil_of_no_match (q : String) (ks : List String)
    (ls : List (Nat × String)) (h : ∀ tl ∈ ls, lineMatches ks tl.2 = false) :
    watchEmit q ks ls = [] := by
  rw [watchEmit_eq]
  have hfil : ls.filter (fun tl => lineMatches ks tl.2) = [] :=
    List.filter_eq_nil.mpr fun tl htl => by simp [h tl htl]
  rw [hfil]
  rfl

theorem sessionEvents_filter_notmem (qs : List String) (ks : List String)
    (linesAt : String → List (Nat × String)) (p : String) (hp : p ∉ qs) :
    (sessionEvents qs ks linesAt).filter (fun e => e.source == p) = [] := by
  induction qs with
  | nil => rfl
  | cons q rest ih =>
    have hqp : q ≠ p := fun hEq => hp (hEq ▸ List.mem_cons_self q rest)
    have hpr : p ∉ rest := fun hmem => hp (List.mem_cons_of_mem q hmem)
    simp only [sessionEvents, List.map_cons, List.flatten_cons, List.filter_append]
    rw [watchEmit_filter_other q p hqp]
    simp only [List.nil_append]
    have hrec := ih hpr
    simp only [sessionEvents] at hrec
    exact hrec

theorem sessionEvents_filter_mem (qs : List String) (ks : List String)
    (linesAt : String → List (Nat × String)) (p : String) (hnd : qs.Nodup)
    (hp : p ∈ qs) :
    (sessionEvents qs ks linesAt).filter (fun e => e.source == p) =
      watchEmit p ks (linesAt p) := by
  induction qs with
  | nil => cases hp
  | cons q rest ih =>
    obtain ⟨hq, hndr⟩ := List.nodup_cons.mp hnd
    simp only [sessionEvents, List.map_cons, List.flatten_cons, List.filter_append]
    rcases List.mem_cons.mp hp with rfl | hpr
    · rw [watchEmit_filter_source_self]
      have h0 := sessionEvents_filter_notmem rest ks linesAt p hq
      simp only [sessionEvents] at h0
      rw [h0, List.append_nil]
    · have hqp : q ≠ p := fun hEq => hq (hEq ▸ hpr)
      rw [watchEmit_filter_other q p hqp]
      simp only [List.nil_append]
      have hrec := ih hndr hpr
      simp only [sessionEvents] at hrec
      exact hrec

theorem map_count_filter_single (f : String → Nat) (p0 : String) :
    ∀ l : List String, p0 ∈ l → l.Nodup → (∀ p ∈ l, p ≠ p0 → f p = 0) →
    f p0 ≠ 0 →
    (l.map (fun p => (p, f p))).filter (fun pc => pc.2 != 0) = [(p0, f p0)] := by
  intro l
  induction l with
  | nil => intro hp; cases hp
  | cons q rest ih =>
    intro hp hnd h0 hm
    obtain ⟨hq, hndr⟩ := List.nodup_cons.mp hnd
    rcases List.mem_cons.mp hp with rfl | hpr
    · have hrest0 : (rest.map (fun p => (p, f p))).filter (fun pc => pc.2 != 0) = [] := by
        apply List.filter_eq_nil.mpr
        intro pc hpc
        obtain ⟨p, hpmem, rfl⟩ := List.mem_map.mp hpc
        have hzero : f p = 0 := h0 p (List.mem_cons_of_mem _ hpmem)
          (fun hEq => hq (hEq ▸ hpmem))
        simp [hzero]
      simp only [List.map_cons, List.filter_cons]
      rw [if_pos (by simpa using hm), hrest0]
    · have hq0 : f q = 0 := h0 q (List.mem_cons_self q rest) (fun hEq => hq (hEq ▸ hpr))
      simp only [List.map_cons, List.filter_cons]
      rw [if_neg (by simp [hq0])]
      exact ih hpr hndr (fun p hpp hne => h0 p (List.mem_cons_of_mem _ hpp) hne) hm

/-- C8: the session report records the total duration, the total event count,
and per-source event counts; and when the watchers run over a duplicate-free
path set in which only one path ever receives keyword-matching lines, the
per-source counts show exactly one nonzero source — that path — whose count
equals the number of its matching lines. -/
theorem c8_report_single_source (paths : List String) (p0 : String)
    (keywords : List String) (linesAt : String → List (Nat × String)) (dur : Nat)
    (hnd : paths.Nodup) (hp : p0 ∈ paths)
    (honly : ∀ p ∈ paths, p ≠ p0 → ∀ tl ∈ linesAt p, lineMatches keywords tl.2 = false)
    (hm : ((linesAt p0).filter (fun tl => lineMatches keywords tl.2)).length ≠ 0) :
    (mkReport dur (sessionEvents paths keywords linesAt) paths).durationSeconds = dur ∧
    (mkReport dur (sessionEvents paths keywords linesAt) paths).totalEvents =
      (sessionEvents paths keywords linesAt).length ∧
    (mkReport dur (sessionEvents paths keywords linesAt) paths).perSource.filter
        (fun pc => pc.2 != 0) =
      [(p0, ((linesAt p0).filter (fun tl => lineMatches keywords tl.2)).length)] := by
  refine ⟨rfl, rfl, ?_⟩
  have hfp0 :
      ((sessionEvents paths keywords linesAt).filter (fun e => e.source == p0)).length =
        ((linesAt p0).filter (fun tl => lineMatches keywords tl.2)).length := by
    rw [sessionEvents_filter_mem paths keywords linesAt p0 hnd hp, watchEmit_eq]
    exact List.length_map _ _
  have hzero : ∀ p ∈ paths, p ≠ p0 →
      ((sessionEvents paths keywords linesAt).filter (fun e => e.source == p)).length = 0 := by
    intro p hpp hne
    rw [sessionEvents_filter_mem paths keywords linesAt p hnd hpp]
    rw [watchEmit_nil_of_no_match p keywords (linesAt p) (honly p hpp hne)]
    rfl
  have key := map_count_filter_single
    (fun p => ((sessionEvents paths keywords linesAt).filter (fun e => e.source == p)).length)
    p0 paths hp hnd hzero (by simpa [hfp0] using hm)
  simp only [hfp0] at key
  exact key

/-- Witness for C8: five default watchers, only cmconfig receives matching
lines (two of three match), and the report shows exactly that one source. -/
theorem c8_report_single_source_witness :
    logFiles.Nodup ∧
    (mkReport 30 (sessionEvents logFiles defaultErrorKeywords c8Lines) logFiles).perSource.filter
        (fun pc => pc.2 != 0) =
      [("/cmconfig.log",
        ((c8Lines "/cmconfig.log").filter
          (fun tl => lineMatches defaultErrorKeywords tl.2)).length)] :=
  ⟨by decide,
   (c8_report_single_source logFiles "/cmconfig.log" defaultErrorKeywords c8Lines 30
      (by decide) (by decide) (by decide) (by decide)).2.2⟩

/-- Witness for C5 at the empty configuration (which falls back to the five
default paths) and a concrete fuel bound. -/
theorem c5_collection_never_returns_witness :
    collectionLogPaths [] ≠ [] ∧
    startCollectionReturns backgroundCancelled [] 1000 = false ∧
    errorChanClosed backgroundCancelled [] 1000 = false :=
  c5_collection_never_returns [] 1000

/-- Witness for C9 at a concrete connectivity error. -/
theorem c9_namespace_errors_swallowed_witness :
    (NamespaceExists (.error "connection refused")).2 = none ∧
    NamespaceExists (.error "connection refused") = (false, none) ∧
    collectorValidateNamespace (.error "connection refused") "miniudm" =
      .error ("namespace " ++ "miniudm" ++ " does not exist") :=
  ⟨c9_namespace_errors_swallowed.1 (.error "connection refused"),
   c9_namespace_errors_swallowed.2.1 "connection refused",
   c9_namespace_errors_swallowed.2.2.1 "connection refused" "miniudm"⟩
